import Mathlib

/-!
Shallow embedding of the agent-arena simulation core (config.py,
core/defi_mechanics.py, core/agent.py, core/simulation.py,
core/analyzer.py) over exact rational arithmetic, together with proofs
about the AMM pool invariants, the incentive economy and the metrics.

Python floats are modelled as `ℚ`; Python dicts keyed by strings are
modelled as insertion-ordered association lists with unique keys.
-/

/-! ### Configuration constants (config.py and class-level attributes) -/

/-- SWAP_FEE from config.py (default 0.003). -/
def SWAP_FEE : ℚ := 3 / 1000

/-- INITIAL_TOKENS from config.py (default 100). -/
def INITIAL_TOKENS : ℚ := 100

/-- Agent.BOREDOM_THRESHOLD (class attribute, 1). -/
def BOREDOM_THRESHOLD : ℕ := 1

/-- Agent.BOREDOM_PENALTY_PER_TURN (class attribute, 10.0). -/
def BOREDOM_PENALTY_PER_TURN : ℚ := 10

/-- Simulation.ALLIANCE_BONUS (4.0). -/
def ALLIANCE_BONUS : ℚ := 4

/-- Simulation.LIQUIDITY_BONUS (8.0). -/
def LIQUIDITY_BONUS : ℚ := 8

/-- Simulation.SWAP_BONUS (3.0). -/
def SWAP_BONUS : ℚ := 3

/-- Simulation.COORDINATED_TRADE_BONUS (5.0). -/
def COORDINATED_TRADE_BONUS : ℚ := 5

/-- Simulation.PROFIT_BONUS (10.0). -/
def PROFIT_BONUS : ℚ := 10

/-- Simulation.MARKET_MAKER_INTERVAL (3). -/
def MARKET_MAKER_INTERVAL : ℕ := 3

/-! ### String constants used by the source -/

/-- Alliance status string recorded by Agent._execute_alliance. -/
def status_proposed : String := "proposed"

/-- Alliance status string recorded by Simulation._process_alliances. -/
def status_success : String := "success"

/-- Action label string for swaps. -/
def act_swap : String := "swap"

/-- Action label string for liquidity provision. -/
def act_provide_liquidity : String := "provide_liquidity"

/-- Action label string for alliance proposals. -/
def act_propose_alliance : String := "propose_alliance"

/-- Action label string for inaction. -/
def act_do_nothing : String := "do_nothing"

/-- Action label string for unrecognized decisions. -/
def act_unknown : String := "unknown"

/-- Concrete agent name used in witnesses. -/
def name_A : String := "A"

/-- Concrete agent name used in witnesses. -/
def name_B : String := "B"

/-- Name of the first simulation agent (Agent_0). -/
def name_agent0 : String := "Agent_0"

/-- Name of the second simulation agent (Agent_1). -/
def name_agent1 : String := "Agent_1"

/-- Placeholder actor name threaded through pool calls whose actor is irrelevant. -/
def name_trader : String := "Trader"

/-! ### Association lists: the model of Python string-keyed dicts -/

/-- Lookup in a Python dict: value of the first (unique) matching key. -/
def alistGet? {α : Type} : List (String × α) → String → Option α
  | [], _ => none
  | (k', v) :: rest, k => if k' = k then some v else alistGet? rest k

/-- Python dict `d.get(k, dflt)`. -/
def alistGetD {α : Type} (l : List (String × α)) (k : String) (dflt : α) : α :=
  (alistGet? l k).getD dflt

/-- Python dict assignment `d[k] = v`: overwrite in place or append. -/
def alistSet {α : Type} : List (String × α) → String → α → List (String × α)
  | [], k, v => [(k, v)]
  | (k', v') :: rest, k, v =>
    if k' = k then (k, v) :: rest else (k', v') :: alistSet rest k v

theorem alistGet?_set_self {α : Type} (l : List (String × α)) (k : String) (v : α) :
    alistGet? (alistSet l k v) k = some v := by
  induction l with
  | nil => simp [alistSet, alistGet?]
  | cons hd tl ih =>
    by_cases h : hd.1 = k
    · simp [alistSet, alistGet?, h]
    · simp [alistSet, alistGet?, h, ih]

theorem alistGet?_set_ne {α : Type} (l : List (String × α)) (k k' : String) (v : α)
    (h : k ≠ k') : alistGet? (alistSet l k v) k' = alistGet? l k' := by
  induction l with
  | nil => simp [alistSet, alistGet?, h]
  | cons hd tl ih =>
    by_cases hk : hd.1 = k
    · simp [alistSet, alistGet?, hk, h]
    · by_cases hk' : hd.1 = k'
      · simp [alistSet, alistGet?, hk, hk', Ne.symm h]
      · simp [alistSet, alistGet?, hk, hk', ih]

theorem alistGetD_set_self {α : Type} (l : List (String × α)) (k : String) (v dflt : α) :
    alistGetD (alistSet l k v) k dflt = v := by
  simp [alistGetD, alistGet?_set_self]

/-! ### Pool (core/defi_mechanics.py) -/

/-- Token identifier: the `token_in == "a"` branch vs the `else` branch of Pool.swap. -/
inductive Token where
  | a
  | b
deriving DecidableEq, Repr

/-- Constant-product AMM pool.  The cached `_constant_product` field is omitted:
it is recomputed to `reserve_a * reserve_b` after every mutation and is never
read by any code the claims touch. -/
structure Pool where
  reserve_a : ℚ
  reserve_b : ℚ
  liquidity_providers : List (String × ℚ)
deriving DecidableEq, Repr

/-- Pool.total_liquidity: sum of LP balances. -/
def Pool.total_liquidity (p : Pool) : ℚ :=
  (p.liquidity_providers.map Prod.snd).sum

/-- Pool._calculate_output: constant-product output `dy = y*dx/(x+dx)` with the
non-positivity guard returning 0. -/
def calculate_output (amount_in reserve_in reserve_out : ℚ) : ℚ :=
  if amount_in ≤ 0 ∨ reserve_in ≤ 0 ∨ reserve_out ≤ 0 then 0
  else amount_in * reserve_out / (reserve_in + amount_in)

/-- Pool.swap: returns (updated pool, amount_out, fee).  The fee is deducted
from the output before it leaves the pool, so it stays in the output reserve. -/
def Pool.swap (p : Pool) (token_in : Token) (amount_in : ℚ) (_agent_name : String) :
    Pool × ℚ × ℚ :=
  if amount_in ≤ 0 then (p, 0, 0)
  else
    match token_in with
    | Token.a =>
      let amount_out0 := calculate_output amount_in p.reserve_a p.reserve_b
      let fee := amount_out0 * SWAP_FEE
      let amount_out := amount_out0 - fee
      ({ p with reserve_a := p.reserve_a + amount_in,
                reserve_b := p.reserve_b - amount_out }, amount_out, fee)
    | Token.b =>
      let amount_out0 := calculate_output amount_in p.reserve_b p.reserve_a
      let fee := amount_out0 * SWAP_FEE
      let amount_out := amount_out0 - fee
      ({ p with reserve_b := p.reserve_b + amount_in,
                reserve_a := p.reserve_a - amount_out }, amount_out, fee)

/-- Model of Python `q ** 0.5` on rationals: exact on every rational that is
the square of a rational (which covers every input the source feeds it in the
claims, e.g. `100 * 100`). -/
def ratSqrt (q : ℚ) : ℚ :=
  (Nat.sqrt q.num.toNat : ℚ) / (Nat.sqrt q.den : ℚ)

/-- Pool.provide_liquidity: returns (updated pool, lp_tokens minted).  LP share
is computed on pre-addition reserves; both full amounts are then credited. -/
def Pool.provide_liquidity (p : Pool) (amount_a amount_b : ℚ) (agent_name : String) :
    Pool × ℚ :=
  if amount_a ≤ 0 ∨ amount_b ≤ 0 then (p, 0)
  else
    let total_liquidity := p.total_liquidity
    let lp_tokens :=
      if total_liquidity = 0 then ratSqrt (amount_a * amount_b)
      else
        let share_a := amount_a / p.reserve_a
        let share_b := amount_b / p.reserve_b
        let share := min share_a share_b
        share * (p.reserve_a + p.reserve_b)
    ({ reserve_a := p.reserve_a + amount_a,
       reserve_b := p.reserve_b + amount_b,
       liquidity_providers :=
         alistSet p.liquidity_providers agent_name
           (alistGetD p.liquidity_providers agent_name 0 + lp_tokens) }, lp_tokens)

/-- Pool.withdraw_liquidity: returns `.ok (updated pool, amount_a, amount_b)` on
the normal path.  The Python statement `self.liquidity_providers[agent_name] -= lp_tokens`
raises KeyError when the actor has no LP entry, *after* both reserves have been
decreased; that path is modelled as `.error` carrying the partially mutated pool. -/
def Pool.withdraw_liquidity (p : Pool) (lp_tokens : ℚ) (agent_name : String) :
    Except Pool (Pool × ℚ × ℚ) :=
  let total_lp := p.total_liquidity
  if total_lp = 0 ∨ lp_tokens ≤ 0 then Except.ok (p, 0, 0)
  else
    let share := lp_tokens / total_lp
    let amount_a := p.reserve_a * share
    let amount_b := p.reserve_b * share
    let p1 : Pool := { p with reserve_a := p.reserve_a - amount_a,
                              reserve_b := p.reserve_b - amount_b }
    match alistGet? p.liquidity_providers agent_name with
    | some bal =>
      let p2 : Pool :=
        { p1 with liquidity_providers := alistSet p1.liquidity_providers agent_name (bal - lp_tokens) }
      Except.ok (p2, amount_a, amount_b)
    | none => Except.error p1

/-- Pool state reached after a withdraw_liquidity call, whether or not the call
raised KeyError (the Python object retains the reserve mutation either way). -/
def withdrawPoolAfter (p : Pool) (lp_tokens : ℚ) (agent_name : String) : Pool :=
  match p.withdraw_liquidity lp_tokens agent_name with
  | Except.ok r => r.1
  | Except.error q => q

/-! ### Agent (core/agent.py) -/

/-- Per-agent economic state.  Fields the claims never touch
(trade_history, learning_summary, the LLM client) are omitted. -/
structure Agent where
  name : String
  token_a : ℚ
  token_b : ℚ
  alliances : List (String × String)
  alliance_proposals : List (String × ℕ)
  consecutive_inaction : ℕ
  total_boredom_penalty : ℚ
deriving DecidableEq, Repr

/-- Freshly constructed Agent(name): the dataclass defaults. -/
def mkAgent (name : String) : Agent :=
  { name := name, token_a := INITIAL_TOKENS, token_b := INITIAL_TOKENS,
    alliances := [], alliance_proposals := [], consecutive_inaction := 0,
    total_boredom_penalty := 0 }

/-- Agent.calculate_profit. -/
def Agent.calculate_profit (ag : Agent) : ℚ :=
  (ag.token_a + ag.token_b) - (INITIAL_TOKENS * 2)

/-- Agent.apply_boredom_penalty: returns (updated agent, penalty applied). -/
def Agent.apply_boredom_penalty (ag : Agent) : Agent × ℚ :=
  if BOREDOM_THRESHOLD ≤ ag.consecutive_inaction then
    let penalty_turns := ag.consecutive_inaction - BOREDOM_THRESHOLD + 1
    let penalty := (penalty_turns : ℚ) * BOREDOM_PENALTY_PER_TURN
    ({ ag with token_a := ag.token_a - penalty,
               total_boredom_penalty := ag.total_boredom_penalty + penalty }, penalty)
  else (ag, 0)

/-- Agent.get_alliance_fatigue: 1.0, 0.5 or 0.0 from this agent's own proposal
counter toward the partner. -/
def Agent.get_alliance_fatigue (ag : Agent) (partner : String) : ℚ :=
  let proposals := alistGetD ag.alliance_proposals partner 0
  if proposals = 0 then 1
  else if proposals = 1 then 1 / 2
  else 0

/-- Agent.record_alliance_proposal. -/
def Agent.record_alliance_proposal (ag : Agent) (partner : String) : Agent :=
  let newCount := alistGetD ag.alliance_proposals partner 0 + 1
  { ag with alliance_proposals := alistSet ag.alliance_proposals partner newCount }

/-- Structured decision: the action vocabulary of Agent.execute_action.
Unknown action strings behave like do_nothing in execute_action but carry a
different label in the turn loop, hence the separate constructor. -/
inductive Decision where
  | swap (fromToken : Token) (amount : ℚ)
  | provide_liquidity (amount_a amount_b : ℚ)
  | propose_alliance (agent_name : String)
  | do_nothing
  | unknown
deriving DecidableEq, Repr

/-- The `decision.get("action", ...)` string of a decision. -/
def actionTypeOf : Decision → String
  | Decision.swap _ _ => act_swap
  | Decision.provide_liquidity _ _ => act_provide_liquidity
  | Decision.propose_alliance _ => act_propose_alliance
  | Decision.do_nothing => act_do_nothing
  | Decision.unknown => act_unknown

/-- Agent._execute_swap: requires sufficient balance in the source token. -/
def Agent.execute_swap (ag : Agent) (fromToken : Token) (amount : ℚ) (pool : Pool) :
    Agent × Pool × Bool :=
  match fromToken with
  | Token.a =>
    if amount ≤ ag.token_a then
      let r := pool.swap Token.a amount ag.name
      ({ ag with token_a := ag.token_a - amount, token_b := ag.token_b + r.2.1 }, r.1, true)
    else (ag, pool, false)
  | Token.b =>
    if amount ≤ ag.token_b then
      let r := pool.swap Token.b amount ag.name
      ({ ag with token_b := ag.token_b - amount, token_a := ag.token_a + r.2.1 }, r.1, true)
    else (ag, pool, false)

/-- Agent._execute_liquidity: requires sufficient balance in both tokens;
debits the declared amounts whatever the pool minted. -/
def Agent.execute_liquidity (ag : Agent) (amount_a amount_b : ℚ) (pool : Pool) :
    Agent × Pool × Bool :=
  if amount_a ≤ ag.token_a ∧ amount_b ≤ ag.token_b then
    let r := pool.provide_liquidity amount_a amount_b ag.name
    ({ ag with token_a := ag.token_a - amount_a, token_b := ag.token_b - amount_b }, r.1, true)
  else (ag, pool, false)

/-- Agent._execute_alliance: records a `proposed` status; fails on an empty name
(Python string truthiness). -/
def Agent.execute_alliance (ag : Agent) (agent_name : String) : Agent × Bool :=
  if agent_name = "" then (ag, false)
  else ({ ag with alliances := alistSet ag.alliances agent_name status_proposed }, true)

/-- Agent.execute_action dispatch. -/
def Agent.execute_action (ag : Agent) (d : Decision) (pool : Pool) : Agent × Pool × Bool :=
  match d with
  | Decision.swap f amt => ag.execute_swap f amt pool
  | Decision.provide_liquidity a b => ag.execute_liquidity a b pool
  | Decision.propose_alliance n =>
    let r := ag.execute_alliance n
    (r.1, pool, r.2)
  | Decision.do_nothing => (ag, pool, true)
  | Decision.unknown => (ag, pool, true)

/-! ### Simulation incentive layer (core/simulation.py) -/

/-- Simulation._is_coordinated_trade.  The Python method also consults
`self.price_shocks`, but no code in the repository ever creates that attribute
(`_trigger_price_shock` records nothing), so the `hasattr` guard makes the
price-shock disjunct constantly False; only the market-maker schedule remains. -/
def is_coordinated_trade (turn : ℕ) : Bool :=
  let market_maker_just_acted := (turn + 1) % MARKET_MAKER_INTERVAL == 0
  let price_shock_just_happened := false
  market_maker_just_acted || price_shock_just_happened

/-- Simulation._grant_action_bonus: returns (updated agent, bonus amount).
`last_profit` is the `agent._last_profit` snapshot taken just before the
agent's action in the turn loop; `ag` is the post-action agent. -/
def grant_action_bonus (ag : Agent) (action_type : String) (turn : ℕ)
    (last_profit : ℚ) : Agent × ℚ :=
  let bonus : ℚ :=
    if action_type = act_provide_liquidity then LIQUIDITY_BONUS
    else if action_type = act_swap then
      let b1 := SWAP_BONUS
      let b2 := if is_coordinated_trade turn then b1 + COORDINATED_TRADE_BONUS else b1
      if last_profit < ag.calculate_profit then b2 + 5 else b2
    else 0
  if 0 < bonus then ({ ag with token_a := ag.token_a + bonus }, bonus)
  else (ag, bonus)

/-- Mutual-pair branch of Simulation._process_alliances: when both agents hold
`proposed` toward each other, credit the fatigue-scaled bonus to token_a,
record the proposals, and mark both statuses `success`.  The Python membership
tests (`in`) are subsumed by the `= some status_proposed` comparisons. -/
def resolvePair (a b : Agent) : Agent × Agent :=
  if alistGet? a.alliances b.name = some status_proposed ∧
     alistGet? b.alliances a.name = some status_proposed then
    let fatigue_a := a.get_alliance_fatigue b.name
    let fatigue_b := b.get_alliance_fatigue a.name
    let bonus_a := ALLIANCE_BONUS * fatigue_a
    let bonus_b := ALLIANCE_BONUS * fatigue_b
    let a1 := { a with token_a := a.token_a + bonus_a }
    let b1 := { b with token_a := b.token_a + bonus_b }
    let a2 := a1.record_alliance_proposal b.name
    let b2 := b1.record_alliance_proposal a.name
    let a3 := { a2 with alliances := alistSet a2.alliances b.name status_success }
    let b3 := { b2 with alliances := alistSet b2.alliances a.name status_success }
    (a3, b3)
  else (a, b)

/-- Index pairs (i, j) with i < j in the order of the Python nested loop
`for i, agent_a in enumerate(agents): for agent_b in agents[i+1:]`. -/
def pairIndices (n : ℕ) : List (ℕ × ℕ) :=
  (List.range n).flatMap fun i =>
    ((List.range n).filter fun j => i < j).map fun j => (i, j)

/-- Simulation._process_alliances over the agent list, mutating in place as the
pair loop runs. -/
def process_alliances (agents : List Agent) : List Agent :=
  (pairIndices agents.length).foldl
    (fun acc ij =>
      match acc[ij.1]?, acc[ij.2]? with
      | some a, some b =>
        let r := resolvePair a b
        (acc.set ij.1 r.1).set ij.2 r.2
      | _, _ => acc)
    agents

/-- Simulation._grant_profit_bonuses: flat PROFIT_BONUS to token_a for every
agent with positive profit. -/
def grant_profit_bonuses (agents : List Agent) : List Agent :=
  agents.map fun ag =>
    if 0 < ag.calculate_profit then { ag with token_a := ag.token_a + PROFIT_BONUS }
    else ag

/-- Per-agent slice of the turn loop: snapshot `_last_profit`, execute the
action against the shared pool, grant the action bonus on success, and update
the inaction counter.  Agents act in list order, each seeing the pool state
left by its predecessors. -/
def runAgentPhase (turn : ℕ) (pool : Pool) (agents : List Agent)
    (decisions : List Decision) : Pool × List Agent :=
  (agents.zip decisions).foldl
    (fun acc ad =>
      let ag := ad.1
      let d := ad.2
      let last_profit := ag.calculate_profit
      let r := ag.execute_action d acc.1
      let ag1 := r.1
      let pool1 := r.2.1
      let success := r.2.2
      let aty := actionTypeOf d
      let ag2 :=
        if success = true ∧ aty ≠ act_do_nothing then
          (grant_action_bonus ag1 aty turn last_profit).1
        else ag1
      let ag3 :=
        if aty = act_do_nothing then
          { ag2 with consecutive_inaction := ag2.consecutive_inaction + 1 }
        else { ag2 with consecutive_inaction := 0 }
      (pool1, acc.2 ++ [ag3]))
    (pool, [])

/-- The balance-affecting phases of one turn of Simulation.run, in source order:
agent decide/execute/action-bonus loop, then the boredom pass, then alliance
resolution, then the profit-bonus pass.  The volatility injectors that precede
the agent loop mutate only the pool and are irrelevant to (and quantified away
in) the claims proved below. -/
def runTurnPhases (turn : ℕ) (pool : Pool) (agents : List Agent)
    (decisions : List Decision) : Pool × List Agent :=
  let r1 := runAgentPhase turn pool agents decisions
  let agents2 := r1.2.map fun ag => ag.apply_boredom_penalty.1
  let agents3 := process_alliances agents2
  let agents4 := grant_profit_bonuses agents3
  (r1.1, agents4)

/-! ### Analyzer (core/analyzer.py) -/

/-- Weighted cumulative sum `Σ (i+1) * v_i` of Analyzer.gini_coefficient,
starting the enumeration at index `i`. -/
def giniCumsum : ℕ → List ℚ → ℚ
  | _, [] => 0
  | i, v :: rest => ((i : ℚ) + 1) * v + giniCumsum (i + 1) rest

/-- Analyzer.gini_coefficient: standard formula on sorted values, clamped into
[0, 1]; 0 for an empty or zero-sum list.  (Simulation._gini_coefficient is the
same formula clamped only from below; the spec designates this clamped version
as canonical.) -/
def gini_coefficient (values : List ℚ) : ℚ :=
  if values = [] ∨ values.sum = 0 then 0
  else
    let sorted_vals := List.insertionSort (fun x y => x ≤ y) values
    let n : ℚ := (sorted_vals.length : ℚ)
    let cumsum := giniCumsum 0 sorted_vals
    let gini := (2 * cumsum) / (n * sorted_vals.sum) - (n + 1) / n
    max 0 (min 1 gini)

/-! ### Derived scenario definitions used by the claims -/

/-- Fold a list of (token, amount) swaps over a pool, as a sequence of
Pool.swap calls. -/
def applySwaps (p : Pool) (l : List (Token × ℚ)) : Pool :=
  l.foldl (fun q s => (q.swap s.1 s.2 name_trader).1) p

/-- Pool() with the default configured reserves (1000, 1000) and no LP entries,
as built by Simulation.initialize_run. -/
def defaultPool : Pool :=
  { reserve_a := 1000, reserve_b := 1000, liquidity_providers := [] }

/-- Turn-0 scenario of the mutual-alliance claim: the two fresh agents of a
default-config run, each successfully proposing alliance to the other and
taking no other action. -/
def turn0Result : Pool × List Agent :=
  runTurnPhases 0 defaultPool [mkAgent name_agent0, mkAgent name_agent1]
    [Decision.propose_alliance name_agent1, Decision.propose_alliance name_agent0]

/-- Both-sides alliance proposal step: each agent of the pair runs
Agent._execute_alliance toward the other, as when both decide propose_alliance
in the same turn. -/
def proposeBoth (ab : Agent × Agent) : Agent × Agent :=
  ((ab.1.execute_alliance ab.2.name).1, (ab.2.execute_alliance ab.1.name).1)

/-- Alliance-resolution step on an ordered pair, as _process_alliances applies
to a mutually proposed pair. -/
def resolveBoth (ab : Agent × Agent) : Agent × Agent :=
  resolvePair ab.1 ab.2

/-! ### Swap characterization lemmas -/

/-- Closed form of Pool.swap on token a for a positive amount against positive
reserves. -/
theorem Pool.swap_a_eq (p : Pool) (x : ℚ) (n : String)
    (ha : 0 < p.reserve_a) (hb : 0 < p.reserve_b) (hx : 0 < x) :
    p.swap Token.a x n =
      ({ p with reserve_a := p.reserve_a + x,
                reserve_b := p.reserve_b - (1 - SWAP_FEE) * (x * p.reserve_b / (p.reserve_a + x)) },
       (1 - SWAP_FEE) * (x * p.reserve_b / (p.reserve_a + x)),
       x * p.reserve_b / (p.reserve_a + x) * SWAP_FEE) := by
  have hguard : ¬(x ≤ 0 ∨ p.reserve_a ≤ 0 ∨ p.reserve_b ≤ 0) := by
    push_neg
    exact ⟨hx, ha, hb⟩
  simp only [Pool.swap, calculate_output, if_neg (not_le.mpr hx), if_neg hguard]
  have hout : x * p.reserve_b / (p.reserve_a + x) - x * p.reserve_b / (p.reserve_a + x) * SWAP_FEE
      = (1 - SWAP_FEE) * (x * p.reserve_b / (p.reserve_a + x)) := by ring
  rw [hout]

/-- Closed form of Pool.swap on token b for a positive amount against positive
reserves. -/
theorem Pool.swap_b_eq (p : Pool) (y : ℚ) (n : String)
    (ha : 0 < p.reserve_a) (hb : 0 < p.reserve_b) (hy : 0 < y) :
    p.swap Token.b y n =
      ({ p with reserve_b := p.reserve_b + y,
                reserve_a := p.reserve_a - (1 - SWAP_FEE) * (y * p.reserve_a / (p.reserve_b + y)) },
       (1 - SWAP_FEE) * (y * p.reserve_a / (p.reserve_b + y)),
       y * p.reserve_a / (p.reserve_b + y) * SWAP_FEE) := by
  have hguard : ¬(y ≤ 0 ∨ p.reserve_b ≤ 0 ∨ p.reserve_a ≤ 0) := by
    push_neg
    exact ⟨hy, hb, ha⟩
  simp only [Pool.swap, calculate_output, if_neg (not_le.mpr hy), if_neg hguard]
  have hout : y * p.reserve_a / (p.reserve_b + y) - y * p.reserve_a / (p.reserve_b + y) * SWAP_FEE
      = (1 - SWAP_FEE) * (y * p.reserve_a / (p.reserve_b + y)) := by ring
  rw [hout]

/-- Any single swap (of any amount) on a positive-reserve pool keeps both
reserves positive and cannot decrease the reserve product. -/
theorem swap_reserves (p : Pool) (t : Token) (x : ℚ) (n : String)
    (ha : 0 < p.reserve_a) (hb : 0 < p.reserve_b) :
    0 < ((p.swap t x n).1).reserve_a ∧ 0 < ((p.swap t x n).1).reserve_b ∧
      p.reserve_a * p.reserve_b ≤ ((p.swap t x n).1).reserve_a * ((p.swap t x n).1).reserve_b := by
  by_cases hx : x ≤ 0
  · simp only [Pool.swap, if_pos hx]
    exact ⟨ha, hb, le_refl _⟩
  · push_neg at hx
    have hfee : (0:ℚ) < SWAP_FEE := by norm_num [SWAP_FEE]
    cases t with
    | a =>
      rw [Pool.swap_a_eq p x n ha hb hx]
      dsimp only
      have hax : 0 < p.reserve_a + x := by linarith
      have hb' : p.reserve_b - (1 - SWAP_FEE) * (x * p.reserve_b / (p.reserve_a + x)) =
          p.reserve_b * (p.reserve_a + SWAP_FEE * x) / (p.reserve_a + x) := by
        field_simp
        ring
      have hnum : 0 < p.reserve_a + SWAP_FEE * x := by nlinarith
      have hbpos : 0 < p.reserve_b - (1 - SWAP_FEE) * (x * p.reserve_b / (p.reserve_a + x)) := by
        rw [hb']
        exact div_pos (mul_pos hb hnum) hax
      refine ⟨hax, hbpos, ?_⟩
      have hprod : (p.reserve_a + x) *
          (p.reserve_b - (1 - SWAP_FEE) * (x * p.reserve_b / (p.reserve_a + x))) =
          p.reserve_a * p.reserve_b + SWAP_FEE * (x * p.reserve_b) := by
        field_simp
        ring
      rw [hprod]
      nlinarith [mul_pos hx hb]
    | b =>
      rw [Pool.swap_b_eq p x n ha hb hx]
      dsimp only
      have hbx : 0 < p.reserve_b + x := by linarith
      have ha' : p.reserve_a - (1 - SWAP_FEE) * (x * p.reserve_a / (p.reserve_b + x)) =
          p.reserve_a * (p.reserve_b + SWAP_FEE * x) / (p.reserve_b + x) := by
        field_simp
        ring
      have hnum : 0 < p.reserve_b + SWAP_FEE * x := by nlinarith
      have hapos : 0 < p.reserve_a - (1 - SWAP_FEE) * (x * p.reserve_a / (p.reserve_b + x)) := by
        rw [ha']
        exact div_pos (mul_pos ha hnum) hbx
      refine ⟨hapos, hbx, ?_⟩
      have hprod : (p.reserve_a - (1 - SWAP_FEE) * (x * p.reserve_a / (p.reserve_b + x))) *
          (p.reserve_b + x) =
          p.reserve_a * p.reserve_b + SWAP_FEE * (x * p.reserve_a) := by
        field_simp
        ring
      rw [hprod]
      nlinarith [mul_pos hx ha]

/-- Folding any swap sequence over a positive-reserve pool keeps the reserves
positive and never decreases the reserve product. -/
theorem applySwaps_invariant (l : List (Token × ℚ)) :
    ∀ p : Pool, 0 < p.reserve_a → 0 < p.reserve_b →
      0 < (applySwaps p l).reserve_a ∧ 0 < (applySwaps p l).reserve_b ∧
        p.reserve_a * p.reserve_b ≤ (applySwaps p l).reserve_a * (applySwaps p l).reserve_b := by
  induction l with
  | nil => exact fun p ha hb => ⟨ha, hb, le_refl _⟩
  | cons s tl ih =>
    intro p ha hb
    obtain ⟨h1, h2, h3⟩ := swap_reserves p s.1 s.2 name_trader ha hb
    obtain ⟨g1, g2, g3⟩ := ih ((p.swap s.1 s.2 name_trader).1) h1 h2
    exact ⟨g1, g2, le_trans h3 g3⟩

/-- C1: for every swap on a Pool with positive reserves and amount_in > 0 the
product reserve_a * reserve_b never decreases, and this holds across any finite
sequence of such swaps (the fee retained in the pool can only grow the product). -/
theorem swap_sequence_product_monotone (p : Pool) (l : List (Token × ℚ))
    (ha : 0 < p.reserve_a) (hb : 0 < p.reserve_b) (_hpos : ∀ s ∈ l, 0 < s.2) :
    p.reserve_a * p.reserve_b ≤ (applySwaps p l).reserve_a * (applySwaps p l).reserve_b :=
  (applySwaps_invariant l p ha hb).2.2

theorem swap_sequence_product_monotone_witness :
    defaultPool.reserve_a * defaultPool.reserve_b ≤
      (applySwaps defaultPool [(Token.a, 100)]).reserve_a *
        (applySwaps defaultPool [(Token.a, 100)]).reserve_b :=
  swap_sequence_product_monotone defaultPool [(Token.a, 100)]
    (by norm_num [defaultPool]) (by norm_num [defaultPool]) (by decide)

/-- C2 counterexample: on the pool (1000, 1000) with a single LP balance of 100,
withdraw_liquidity 100 passes the operation's validation guard (supply nonzero,
lp_tokens > 0) yet drives reserve_a down to exactly 0, so the claimed strict
positivity of reserves after every guard-passing operation is false. -/
theorem reserves_positive_counterexample :
    ¬ (0 < (withdrawPoolAfter
        { reserve_a := 1000, reserve_b := 1000, liquidity_providers := [(name_A, 100)] }
        100 name_A).reserve_a) := by
  norm_num [withdrawPoolAfter, Pool.withdraw_liquidity, Pool.total_liquidity,
    alistGet?, alistSet, name_A]

/-- C2 (amended): starting from strictly positive reserves, swap and
provide_liquidity keep both reserves strictly positive for all inputs
(non-positive inputs being no-ops), and withdraw_liquidity does so provided the
burned lp_tokens are strictly less than the total LP supply. -/
theorem reserves_positive_after_ops (p : Pool) (ha : 0 < p.reserve_a) (hb : 0 < p.reserve_b) :
    (∀ t x n, 0 < ((p.swap t x n).1).reserve_a ∧ 0 < ((p.swap t x n).1).reserve_b) ∧
    (∀ a b n, 0 < ((p.provide_liquidity a b n).1).reserve_a ∧
      0 < ((p.provide_liquidity a b n).1).reserve_b) ∧
    (∀ lp n, lp < p.total_liquidity →
      0 < (withdrawPoolAfter p lp n).reserve_a ∧ 0 < (withdrawPoolAfter p lp n).reserve_b) := by
  refine ⟨?_, ?_, ?_⟩
  · intro t x n
    exact ⟨(swap_reserves p t x n ha hb).1, (swap_reserves p t x n ha hb).2.1⟩
  · intro a b n
    by_cases h : a ≤ 0 ∨ b ≤ 0
    · simp only [Pool.provide_liquidity, if_pos h]
      exact ⟨ha, hb⟩
    · push_neg at h
      have hg : ¬(a ≤ 0 ∨ b ≤ 0) := by
        push_neg
        exact h
      simp only [Pool.provide_liquidity, if_neg hg]
      constructor
      · dsimp only
        linarith [h.1]
      · dsimp only
        linarith [h.2]
  · intro lp n hlt
    unfold withdrawPoolAfter Pool.withdraw_liquidity
    by_cases hg : p.total_liquidity = 0 ∨ lp ≤ 0
    · rw [if_pos hg]
      exact ⟨ha, hb⟩
    · rw [if_neg hg]
      push_neg at hg
      have htot : 0 < p.total_liquidity := lt_trans hg.2 hlt
      have hs1 : lp / p.total_liquidity < 1 := (div_lt_one htot).mpr hlt
      have hra : 0 < p.reserve_a - p.reserve_a * (lp / p.total_liquidity) := by
        have : p.reserve_a - p.reserve_a * (lp / p.total_liquidity)
            = p.reserve_a * (1 - lp / p.total_liquidity) := by ring
        rw [this]
        exact mul_pos ha (by linarith)
      have hrb : 0 < p.reserve_b - p.reserve_b * (lp / p.total_liquidity) := by
        have : p.reserve_b - p.reserve_b * (lp / p.total_liquidity)
            = p.reserve_b * (1 - lp / p.total_liquidity) := by ring
        rw [this]
        exact mul_pos hb (by linarith)
      cases hpl : alistGet? p.liquidity_providers n with
      | some bal =>
        simp only [hpl]
        exact ⟨hra, hrb⟩
      | none =>
        simp only [hpl]
        exact ⟨hra, hrb⟩

theorem reserves_positive_after_ops_witness :
    0 < ((Pool.swap { reserve_a := 1000, reserve_b := 1000, liquidity_providers := [(name_A, 100)] }
        Token.a 100 name_B).1).reserve_a ∧
    0 < ((Pool.provide_liquidity { reserve_a := 1000, reserve_b := 1000, liquidity_providers := [(name_A, 100)] }
        50 50 name_B).1).reserve_b ∧
    0 < (withdrawPoolAfter { reserve_a := 1000, reserve_b := 1000, liquidity_providers := [(name_A, 100)] }
        50 name_A).reserve_a := by
  have h := reserves_positive_after_ops
    { reserve_a := 1000, reserve_b := 1000, liquidity_providers := [(name_A, 100)] }
    (by norm_num) (by norm_num)
  exact ⟨(h.1 Token.a 100 name_B).1, (h.2.1 50 50 name_B).2,
    (h.2.2 50 name_A (by norm_num [Pool.total_liquidity])).1⟩

/-- C7: swapping X > 0 of token a for token b and then swapping the received
amount back never returns more than X of token a (the round trip pays the fee
twice, returning exactly (1 - SWAP_FEE)^2 * X). -/
theorem round_trip_never_profits (p : Pool) (x : ℚ) (n1 n2 : String)
    (ha : 0 < p.reserve_a) (hb : 0 < p.reserve_b) (hx : 0 < x) :
    ((p.swap Token.a x n1).1.swap Token.b ((p.swap Token.a x n1).2.1) n2).2.1 ≤ x := by
  have hax : 0 < p.reserve_a + x := by linarith
  have hxb : 0 < x * p.reserve_b / (p.reserve_a + x) := div_pos (mul_pos hx hb) hax
  have hfee0 : (0:ℚ) < 1 - SWAP_FEE := by norm_num [SWAP_FEE]
  have hfee1 : (1:ℚ) - SWAP_FEE < 1 := by norm_num [SWAP_FEE]
  have hy0 : 0 < (1 - SWAP_FEE) * (x * p.reserve_b / (p.reserve_a + x)) :=
    mul_pos hfee0 hxb
  have hcap : x * p.reserve_b / (p.reserve_a + x) < p.reserve_b := by
    rw [div_lt_iff₀ hax]
    nlinarith
  have hyb : 0 < p.reserve_b - (1 - SWAP_FEE) * (x * p.reserve_b / (p.reserve_a + x)) := by
    nlinarith
  rw [Pool.swap_a_eq p x n1 ha hb hx]
  dsimp only
  rw [Pool.swap_b_eq _ _ n2 (by dsimp only; linarith) (by dsimp only; exact hyb) hy0]
  dsimp only
  have hden : p.reserve_b - (1 - SWAP_FEE) * (x * p.reserve_b / (p.reserve_a + x)) +
      (1 - SWAP_FEE) * (x * p.reserve_b / (p.reserve_a + x)) = p.reserve_b := by ring
  rw [hden]
  have hkey : (1 - SWAP_FEE) *
      ((1 - SWAP_FEE) * (x * p.reserve_b / (p.reserve_a + x)) * (p.reserve_a + x) / p.reserve_b)
      = (1 - SWAP_FEE)^2 * x := by
    field_simp
    ring
  rw [hkey]
  have hsq : (1 - SWAP_FEE)^2 ≤ 1 := by norm_num [SWAP_FEE]
  nlinarith [mul_nonneg (le_of_lt hx) (sub_nonneg.mpr hsq)]

theorem round_trip_never_profits_witness :
    ((defaultPool.swap Token.a 100 name_A).1.swap Token.b
      ((defaultPool.swap Token.a 100 name_A).2.1) name_A).2.1 ≤ 100 :=
  round_trip_never_profits defaultPool 100 name_A name_A
    (by norm_num [defaultPool]) (by norm_num [defaultPool]) (by norm_num)

/-- Helper used to discharge the clamp in concrete gini computations. -/
theorem max0min1_eq_zero (x : ℚ) (h : x = 0) : max 0 (min 1 x) = 0 := by
  rw [h]
  norm_num

/-- C3: the Gini coefficient lies in [0, 1] for every input of non-negative
sum, and returns 0 on the empty list, on every zero-sum list, and on every
constant list [v, v, v] with v > 0. -/
theorem gini_bounds_and_zeros :
    (∀ v : List ℚ, 0 ≤ v.sum → 0 ≤ gini_coefficient v ∧ gini_coefficient v ≤ 1) ∧
    gini_coefficient ([] : List ℚ) = 0 ∧
    (∀ v : List ℚ, v.sum = 0 → gini_coefficient v = 0) ∧
    (∀ q : ℚ, 0 < q → gini_coefficient [q, q, q] = 0) := by
  refine ⟨?_, ?_, ?_, ?_⟩
  · intro v _
    unfold gini_coefficient
    by_cases h : v = [] ∨ v.sum = 0
    · rw [if_pos h]
      norm_num
    · rw [if_neg h]
      exact ⟨le_max_left _ _, max_le (by norm_num) (min_le_left _ _)⟩
  · simp [gini_coefficient]
  · intro v hv
    unfold gini_coefficient
    rw [if_pos (Or.inr hv)]
  · intro q hq
    have hq0 : q ≠ 0 := ne_of_gt hq
    have hsum : ([q, q, q] : List ℚ).sum = 3 * q := by
      simp
      ring
    have hne : ¬([q, q, q] = ([] : List ℚ) ∨ ([q, q, q] : List ℚ).sum = 0) := by
      push_neg
      refine ⟨by simp, ?_⟩
      rw [hsum]
      positivity
    have hsort : List.insertionSort (fun x y => x ≤ y) [q, q, q] = [q, q, q] := by
      simp [List.insertionSort, List.orderedInsert]
    simp only [gini_coefficient]
    rw [if_neg hne]
    simp only [hsort, giniCumsum, List.sum_cons, List.sum_nil, List.length_cons,
      List.length_nil]
    apply max0min1_eq_zero
    push_cast
    have h3q : q + (q + (q + 0)) = 3 * q := by ring
    rw [h3q]
    field_simp
    ring

theorem gini_bounds_and_zeros_witness :
    (0 ≤ gini_coefficient [2, 5] ∧ gini_coefficient [2, 5] ≤ 1) ∧
    gini_coefficient ([] : List ℚ) = 0 ∧
    gini_coefficient [3, -3] = 0 ∧
    gini_coefficient [7, 7, 7] = 0 :=
  ⟨gini_bounds_and_zeros.1 [2, 5] (by norm_num),
   gini_bounds_and_zeros.2.1,
   gini_bounds_and_zeros.2.2.1 [3, -3] (by norm_num),
   gini_bounds_and_zeros.2.2.2 7 (by norm_num)⟩

/-! ### Alliance resolution lemmas -/

theorem alistSet_set_self {α : Type} (l : List (String × α)) (k : String) (v w : α) :
    alistSet (alistSet l k v) k w = alistSet l k w := by
  induction l with
  | nil => simp [alistSet]
  | cons hd tl ih =>
    by_cases h : hd.1 = k
    · simp [alistSet, h]
    · simp [alistSet, h, ih]

theorem fatigue_of_count_zero (ag : Agent) (partner : String)
    (h : alistGetD ag.alliance_proposals partner 0 = 0) :
    ag.get_alliance_fatigue partner = 1 := by
  simp [Agent.get_alliance_fatigue, h]

theorem fatigue_of_count_one (ag : Agent) (partner : String)
    (h : alistGetD ag.alliance_proposals partner 0 = 1) :
    ag.get_alliance_fatigue partner = 1 / 2 := by
  simp [Agent.get_alliance_fatigue, h]

theorem fatigue_of_count_many (ag : Agent) (partner : String)
    (h : 2 ≤ alistGetD ag.alliance_proposals partner 0) :
    ag.get_alliance_fatigue partner = 0 := by
  unfold Agent.get_alliance_fatigue
  rw [if_neg (by omega), if_neg (by omega)]

theorem execute_alliance_eq (ag : Agent) (n : String) (h : n ≠ "") :
    ag.execute_alliance n =
      ({ ag with alliances := alistSet ag.alliances n status_proposed }, true) := by
  unfold Agent.execute_alliance
  rw [if_neg h]

/-- Effect of the mutual branch of _process_alliances on one pair. -/
theorem resolvePair_mutual (a b : Agent)
    (hpa : alistGet? a.alliances b.name = some status_proposed)
    (hpb : alistGet? b.alliances a.name = some status_proposed) :
    resolvePair a b =
      ({ a with token_a := a.token_a + ALLIANCE_BONUS * a.get_alliance_fatigue b.name,
                alliances := alistSet a.alliances b.name status_success,
                alliance_proposals := alistSet a.alliance_proposals b.name
                  (alistGetD a.alliance_proposals b.name 0 + 1) },
       { b with token_a := b.token_a + ALLIANCE_BONUS * b.get_alliance_fatigue a.name,
                alliances := alistSet b.alliances a.name status_success,
                alliance_proposals := alistSet b.alliance_proposals a.name
                  (alistGetD b.alliance_proposals a.name 0 + 1) }) := by
  unfold resolvePair Agent.record_alliance_proposal
  rw [if_pos ⟨hpa, hpb⟩]

/-- C4: for two distinct mutually-proposed agents, three successive mutual
proposal rounds credit per-side alliance bonuses of 4, then 2, then 0 tokens
to token_a (ALLIANCE_BONUS scaled by the fatigue multiplier 1.0 / 0.5 / 0.0
computed from each agent's own proposal counter), and the first mutual match
sets both alliances entries to success. -/
theorem alliance_fatigue_bonuses (a b : Agent)
    (_hab : a.name ≠ b.name) (hae : a.name ≠ "") (hbe : b.name ≠ "")
    (hpa : alistGet? a.alliances b.name = some status_proposed)
    (hpb : alistGet? b.alliances a.name = some status_proposed)
    (hca : alistGetD a.alliance_proposals b.name 0 = 0)
    (hcb : alistGetD b.alliance_proposals a.name 0 = 0) :
    (resolveBoth (a, b)).1.token_a = a.token_a + 4 ∧
    (resolveBoth (a, b)).2.token_a = b.token_a + 4 ∧
    alistGet? (resolveBoth (a, b)).1.alliances b.name = some status_success ∧
    alistGet? (resolveBoth (a, b)).2.alliances a.name = some status_success ∧
    (resolveBoth (proposeBoth (resolveBoth (a, b)))).1.token_a = a.token_a + 4 + 2 ∧
    (resolveBoth (proposeBoth (resolveBoth (a, b)))).2.token_a = b.token_a + 4 + 2 ∧
    (resolveBoth (proposeBoth (resolveBoth (proposeBoth (resolveBoth (a, b)))))).1.token_a
      = a.token_a + 4 + 2 + 0 ∧
    (resolveBoth (proposeBoth (resolveBoth (proposeBoth (resolveBoth (a, b)))))).2.token_a
      = b.token_a + 4 + 2 + 0 ∧
    (∀ c : Agent, ∀ partner : String,
      (alistGetD c.alliance_proposals partner 0 = 0 → c.get_alliance_fatigue partner = 1) ∧
      (alistGetD c.alliance_proposals partner 0 = 1 → c.get_alliance_fatigue partner = 1 / 2) ∧
      (2 ≤ alistGetD c.alliance_proposals partner 0 → c.get_alliance_fatigue partner = 0)) := by
  have hf_a : a.get_alliance_fatigue b.name = 1 := fatigue_of_count_zero a b.name hca
  have hf_b : b.get_alliance_fatigue a.name = 1 := fatigue_of_count_zero b a.name hcb
  have e1 : resolveBoth (a, b) =
      ({ a with token_a := a.token_a + 4,
                alliances := alistSet a.alliances b.name status_success,
                alliance_proposals := alistSet a.alliance_proposals b.name 1 },
       { b with token_a := b.token_a + 4,
                alliances := alistSet b.alliances a.name status_success,
                alliance_proposals := alistSet b.alliance_proposals a.name 1 }) := by
    unfold resolveBoth
    rw [resolvePair_mutual a b hpa hpb, hf_a, hf_b, hca, hcb]
    norm_num [ALLIANCE_BONUS]
  have e2 : proposeBoth (resolveBoth (a, b)) =
      ({ a with token_a := a.token_a + 4,
                alliances := alistSet a.alliances b.name status_proposed,
                alliance_proposals := alistSet a.alliance_proposals b.name 1 },
       { b with token_a := b.token_a + 4,
                alliances := alistSet b.alliances a.name status_proposed,
                alliance_proposals := alistSet b.alliance_proposals a.name 1 }) := by
    rw [e1]
    unfold proposeBoth
    dsimp only
    rw [execute_alliance_eq _ _ hbe, execute_alliance_eq _ _ hae]
    dsimp only
    rw [alistSet_set_self, alistSet_set_self]
  have e3 : resolveBoth (proposeBoth (resolveBoth (a, b))) =
      ({ a with token_a := a.token_a + 4 + 2,
                alliances := alistSet a.alliances b.name status_success,
                alliance_proposals := alistSet a.alliance_proposals b.name 2 },
       { b with token_a := b.token_a + 4 + 2,
                alliances := alistSet b.alliances a.name status_success,
                alliance_proposals := alistSet b.alliance_proposals a.name 2 }) := by
    rw [e2]
    unfold resolveBoth
    rw [resolvePair_mutual _ _ (by dsimp only; exact alistGet?_set_self _ _ _)
      (by dsimp only; exact alistGet?_set_self _ _ _)]
    dsimp only
    rw [fatigue_of_count_one _ _ (by dsimp only; exact alistGetD_set_self _ _ _ _),
      fatigue_of_count_one _ _ (by dsimp only; exact alistGetD_set_self _ _ _ _)]
    rw [alistGetD_set_self, alistGetD_set_self, alistSet_set_self, alistSet_set_self,
      alistSet_set_self, alistSet_set_self]
    norm_num [ALLIANCE_BONUS]
  have e4 : proposeBoth (resolveBoth (proposeBoth (resolveBoth (a, b)))) =
      ({ a with token_a := a.token_a + 4 + 2,
                alliances := alistSet a.alliances b.name status_proposed,
                alliance_proposals := alistSet a.alliance_proposals b.name 2 },
       { b with token_a := b.token_a + 4 + 2,
                alliances := alistSet b.alliances a.name status_proposed,
                alliance_proposals := alistSet b.alliance_proposals a.name 2 }) := by
    rw [e3]
    unfold proposeBoth
    dsimp only
    rw [execute_alliance_eq _ _ hbe, execute_alliance_eq _ _ hae]
    dsimp only
    rw [alistSet_set_self, alistSet_set_self]
  have e5 : resolveBoth (proposeBoth (resolveBoth (proposeBoth (resolveBoth (a, b))))) =
      ({ a with token_a := a.token_a + 4 + 2 + 0,
                alliances := alistSet a.alliances b.name status_success,
                alliance_proposals := alistSet a.alliance_proposals b.name 3 },
       { b with token_a := b.token_a + 4 + 2 + 0,
                alliances := alistSet b.alliances a.name status_success,
                alliance_proposals := alistSet b.alliance_proposals a.name 3 }) := by
    rw [e4]
    unfold resolveBoth
    rw [resolvePair_mutual _ _ (by dsimp only; exact alistGet?_set_self _ _ _)
      (by dsimp only; exact alistGet?_set_self _ _ _)]
    dsimp only
    rw [fatigue_of_count_many _ _ (by dsimp only; rw [alistGetD_set_self]),
      fatigue_of_count_many _ _ (by dsimp only; rw [alistGetD_set_self])]
    rw [alistGetD_set_self, alistGetD_set_self, alistSet_set_self, alistSet_set_self,
      alistSet_set_self, alistSet_set_self]
    norm_num [ALLIANCE_BONUS]
  refine ⟨by rw [e1], by rw [e1], ?_, ?_, by rw [e3], by rw [e3], by rw [e5], by rw [e5], ?_⟩
  · rw [e1]
    dsimp only
    exact alistGet?_set_self _ _ _
  · rw [e1]
    dsimp only
    exact alistGet?_set_self _ _ _
  · intro c partner
    exact ⟨fatigue_of_count_zero c partner, fatigue_of_count_one c partner,
      fatigue_of_count_many c partner⟩

/-- Concrete mutually-proposed fresh agent used in the alliance witness. -/
def allianceWitnessA : Agent :=
  { mkAgent name_A with alliances := [(name_B, status_proposed)] }

/-- Concrete mutually-proposed fresh agent used in the alliance witness. -/
def allianceWitnessB : Agent :=
  { mkAgent name_B with alliances := [(name_A, status_proposed)] }

theorem alliance_fatigue_bonuses_witness :
    (resolveBoth (allianceWitnessA, allianceWitnessB)).1.token_a = 104 ∧
    alistGet? (resolveBoth (allianceWitnessA, allianceWitnessB)).1.alliances
      allianceWitnessB.name = some status_success ∧
    (resolveBoth (proposeBoth (resolveBoth (allianceWitnessA, allianceWitnessB)))).1.token_a
      = 106 ∧
    (resolveBoth (proposeBoth (resolveBoth (proposeBoth
      (resolveBoth (allianceWitnessA, allianceWitnessB)))))).1.token_a = 106 := by
  have h := alliance_fatigue_bonuses allianceWitnessA allianceWitnessB
    (by simp [allianceWitnessA, allianceWitnessB, mkAgent, name_A, name_B])
    (by simp [allianceWitnessA, mkAgent, name_A])
    (by simp [allianceWitnessB, mkAgent, name_B])
    (by simp [allianceWitnessA, allianceWitnessB, mkAgent, alistGet?])
    (by simp [allianceWitnessA, allianceWitnessB, mkAgent, alistGet?])
    (by simp [allianceWitnessA, mkAgent, alistGetD, alistGet?])
    (by simp [allianceWitnessB, mkAgent, alistGetD, alistGet?])
  obtain ⟨h1, -, h3, -, h5, -, h7, -, -⟩ := h
  refine ⟨?_, ?_, ?_, ?_⟩
  · rw [h1]
    norm_num [allianceWitnessA, mkAgent, INITIAL_TOKENS]
  · exact h3
  · rw [h5]
    norm_num [allianceWitnessA, mkAgent, INITIAL_TOKENS]
  · rw [h7]
    norm_num [allianceWitnessA, mkAgent, INITIAL_TOKENS]

/-! ### Boredom penalty -/

/-- Closed form of apply_boredom_penalty when the threshold is met. -/
theorem apply_boredom_eq (ag : Agent) (h : 1 ≤ ag.consecutive_inaction) :
    ag.apply_boredom_penalty =
      ({ ag with token_a := ag.token_a - 10 * (ag.consecutive_inaction : ℚ),
                 total_boredom_penalty :=
                   ag.total_boredom_penalty + 10 * (ag.consecutive_inaction : ℚ) },
       10 * (ag.consecutive_inaction : ℚ)) := by
  unfold Agent.apply_boredom_penalty
  rw [if_pos (show BOREDOM_THRESHOLD ≤ ag.consecutive_inaction by
    simpa [BOREDOM_THRESHOLD] using h)]
  have hc : ag.consecutive_inaction - BOREDOM_THRESHOLD + 1 = ag.consecutive_inaction := by
    simp only [BOREDOM_THRESHOLD]
    omega
  rw [hc]
  dsimp only
  have hmul : (ag.consecutive_inaction : ℚ) * BOREDOM_PENALTY_PER_TURN
      = 10 * (ag.consecutive_inaction : ℚ) := by
    simp only [BOREDOM_PENALTY_PER_TURN]
    ring
  rw [hmul]

/-- C6: apply_boredom_penalty with consecutive_inaction = n returns 10 * n when
n ≥ 1, debits exactly that amount from token_a only (token_b unchanged) and
accumulates it into total_boredom_penalty; when n = 0 it returns 0 and changes
nothing; and every application leaves total_boredom_penalty non-decreasing. -/
theorem boredom_penalty_spec (ag : Agent) :
    (1 ≤ ag.consecutive_inaction →
      ag.apply_boredom_penalty.2 = 10 * (ag.consecutive_inaction : ℚ) ∧
      ag.apply_boredom_penalty.1.token_a
        = ag.token_a - 10 * (ag.consecutive_inaction : ℚ) ∧
      ag.apply_boredom_penalty.1.token_b = ag.token_b ∧
      ag.apply_boredom_penalty.1.total_boredom_penalty
        = ag.total_boredom_penalty + 10 * (ag.consecutive_inaction : ℚ)) ∧
    (ag.consecutive_inaction = 0 → ag.apply_boredom_penalty = (ag, 0)) ∧
    ag.total_boredom_penalty ≤ ag.apply_boredom_penalty.1.total_boredom_penalty := by
  refine ⟨?_, ?_, ?_⟩
  · intro h
    rw [apply_boredom_eq ag h]
    exact ⟨rfl, rfl, rfl, rfl⟩
  · intro h
    unfold Agent.apply_boredom_penalty
    rw [if_neg (by simp [BOREDOM_THRESHOLD, h])]
  · by_cases h : 1 ≤ ag.consecutive_inaction
    · rw [apply_boredom_eq ag h]
      have : (0:ℚ) ≤ 10 * (ag.consecutive_inaction : ℚ) := by positivity
      dsimp only
      linarith
    · unfold Agent.apply_boredom_penalty
      rw [if_neg (by simpa [BOREDOM_THRESHOLD] using h)]

theorem boredom_penalty_spec_witness :
    ({ mkAgent name_B with consecutive_inaction := 2 } : Agent).apply_boredom_penalty.2
      = 20 ∧
    ({ mkAgent name_B with consecutive_inaction := 2 } : Agent).apply_boredom_penalty.1.token_a
      = INITIAL_TOKENS - 20 := by
  have h := boredom_penalty_spec { mkAgent name_B with consecutive_inaction := 2 }
  obtain ⟨h1, h2, -, -⟩ := h.1 (by norm_num [mkAgent])
  constructor
  · rw [h1]
    norm_num [mkAgent]
  · rw [h2]
    norm_num [mkAgent]

/-! ### Turn-0 mutual-alliance scenario -/

/-- Boredom pass is a no-op on an agent that just acted (counter reset to 0). -/
theorem apply_boredom_noop (ag : Agent) (h : ag.consecutive_inaction = 0) :
    ag.apply_boredom_penalty = (ag, 0) := by
  unfold Agent.apply_boredom_penalty
  rw [if_neg (by simp [BOREDOM_THRESHOLD, h])]

/-- _process_alliances on a two-agent list processes exactly the one pair. -/
theorem process_alliances_pair (x y : Agent) :
    process_alliances [x, y] = [(resolvePair x y).1, (resolvePair x y).2] := rfl

/-- Agent phase of the turn-0 scenario: both proposals succeed, no action
bonus is granted (propose_alliance carries none), inaction counters reset. -/
theorem turn0_agent_phase :
    runAgentPhase 0 defaultPool [mkAgent name_agent0, mkAgent name_agent1]
      [Decision.propose_alliance name_agent1, Decision.propose_alliance name_agent0]
    = (defaultPool,
       [{ mkAgent name_agent0 with alliances := [(name_agent1, status_proposed)] },
        { mkAgent name_agent1 with alliances := [(name_agent0, status_proposed)] }]) := by
  have h1 : (name_agent1 = "") = False := by simp [name_agent1]
  have h0 : (name_agent0 = "") = False := by simp [name_agent0]
  have hpd : (act_propose_alliance = act_do_nothing) = False := by
    simp [act_propose_alliance, act_do_nothing]
  have hpl : (act_propose_alliance = act_provide_liquidity) = False := by
    simp [act_propose_alliance, act_provide_liquidity]
  have hps : (act_propose_alliance = act_swap) = False := by
    simp [act_propose_alliance, act_swap]
  unfold runAgentPhase
  simp only [List.zip_cons_cons, List.zip_nil_right, List.foldl_cons, List.foldl_nil,
    Agent.execute_action, Agent.execute_alliance, actionTypeOf, grant_action_bonus,
    h1, h0, hpd, hpl, hps, if_false, if_true, eq_self_iff_true, not_false_iff,
    and_true, true_and, lt_self_iff_false, mkAgent, alistSet]
  norm_num

/-- Value of the full turn-0 scenario: each side ends with token_a = 114
(100 + 4 alliance bonus + 10 profit bonus) and a success status. -/
theorem turn0Result_eq :
    turn0Result = (defaultPool,
      [{ mkAgent name_agent0 with token_a := 114, alliances := [(name_agent1, status_success)], alliance_proposals := [(name_agent1, 1)] },
       { mkAgent name_agent1 with token_a := 114, alliances := [(name_agent0, status_success)], alliance_proposals := [(name_agent0, 1)] }]) := by
  unfold turn0Result runTurnPhases
  rw [turn0_agent_phase]
  dsimp only
  rw [List.map_cons, List.map_cons, List.map_nil,
    apply_boredom_noop _ (by simp [mkAgent]), apply_boredom_noop _ (by simp [mkAgent])]
  dsimp only
  rw [process_alliances_pair,
    resolvePair_mutual _ _ (by simp [mkAgent, alistGet?]) (by simp [mkAgent, alistGet?]),
    fatigue_of_count_zero _ _ (by simp [mkAgent, alistGetD, alistGet?]),
    fatigue_of_count_zero _ _ (by simp [mkAgent, alistGetD, alistGet?])]
  dsimp only
  norm_num [grant_profit_bonuses, Agent.calculate_profit, INITIAL_TOKENS, PROFIT_BONUS,
    ALLIANCE_BONUS, mkAgent, alistSet, alistGetD, alistGet?]

/-- C8 counterexample: in the turn-0 mutual-alliance scenario each agent's
token_a gain over the turn is not 4.0 — the 4.0 alliance bonus makes profit
positive, so the end-of-turn profit pass adds PROFIT_BONUS on top. -/
theorem mutual_alliance_turn0_not_four :
    ¬ ((turn0Result.2.map fun ag => ag.token_a - INITIAL_TOKENS) = [4, 4]) := by
  rw [turn0Result_eq]
  norm_num [mkAgent, INITIAL_TOKENS]

/-- C8 (amended): in a default-config run where the two agents each
successfully propose alliance to the other on turn 0 and take no other
balance-changing action, each agent's token_a rises by exactly 14.0 over the
turn (4.0 alliance bonus + 10.0 profit bonus), and each agent's alliances
entry for the other equals success. -/
theorem mutual_alliance_turn0_gain_fourteen :
    (turn0Result.2.map fun ag => ag.token_a - INITIAL_TOKENS) = [14, 14] ∧
    (turn0Result.2.map fun ag => ag.alliances)
      = [[(name_agent1, status_success)], [(name_agent0, status_success)]] := by
  rw [turn0Result_eq]
  constructor
  · norm_num [mkAgent, INITIAL_TOKENS]
  · simp [mkAgent]

/-- C5 (code-bug evidence): on turn 0 — not a market-maker schedule turn — a
successful swap with no profit gain is credited exactly SWAP_BONUS = 3, and
is_coordinated_trade is a function of the turn number alone: the Python
price-shock disjunct reads `self.price_shocks`, which no code ever creates, so
a price shock firing this turn can never add the +5 coordinated bonus that the
claim requires (3 ≠ 3 + 5). -/
theorem swap_bonus_ignores_price_shock :
    (grant_action_bonus (mkAgent name_A) act_swap 0 ((mkAgent name_A).calculate_profit)).2
      = SWAP_BONUS ∧
    (grant_action_bonus (mkAgent name_A) act_swap 0 ((mkAgent name_A).calculate_profit)).1.token_a
      = INITIAL_TOKENS + SWAP_BONUS ∧
    SWAP_BONUS ≠ SWAP_BONUS + COORDINATED_TRADE_BONUS ∧
    (∀ turn : ℕ, is_coordinated_trade turn = ((turn + 1) % MARKET_MAKER_INTERVAL == 0)) := by
  have hsp : (act_swap = act_provide_liquidity) = False := by
    simp [act_swap, act_provide_liquidity]
  have hss : (act_swap = act_swap) = True := by simp
  have hco : is_coordinated_trade 0 = false := by
    simp [is_coordinated_trade, MARKET_MAKER_INTERVAL]
  refine ⟨?_, ?_, ?_, ?_⟩
  · simp only [grant_action_bonus, hsp, hss, hco, if_false, if_true,
      lt_self_iff_false, Bool.false_eq_true]
    norm_num [SWAP_BONUS]
  · simp only [grant_action_bonus, hsp, hss, hco, if_false, if_true,
      lt_self_iff_false, Bool.false_eq_true]
    norm_num [SWAP_BONUS, mkAgent]
  · norm_num [SWAP_BONUS, COORDINATED_TRADE_BONUS]
  · intro turn
    simp [is_coordinated_trade]

/-- C9: provide_liquidity is a no-op returning 0 unless both amounts are
positive; with positive amounts it mints sqrt(amount_a * amount_b) when the
existing LP supply is zero and min-share * (reserve_a + reserve_b) on
pre-addition reserves otherwise, adds both full amounts to the reserves, and
credits the actor's LP balance with the minted tokens; providing (100, 100) to
an empty-LP pool mints exactly 100. -/
theorem provide_liquidity_spec (p : Pool) (a b : ℚ) (n : String) :
    ((a ≤ 0 ∨ b ≤ 0) → p.provide_liquidity a b n = (p, 0)) ∧
    (0 < a → 0 < b →
      (p.total_liquidity = 0 → (p.provide_liquidity a b n).2 = ratSqrt (a * b)) ∧
      (p.total_liquidity ≠ 0 → 0 < p.reserve_a → 0 < p.reserve_b →
        (p.provide_liquidity a b n).2
          = min (a / p.reserve_a) (b / p.reserve_b) * (p.reserve_a + p.reserve_b)) ∧
      (p.provide_liquidity a b n).1.reserve_a = p.reserve_a + a ∧
      (p.provide_liquidity a b n).1.reserve_b = p.reserve_b + b ∧
      alistGetD (p.provide_liquidity a b n).1.liquidity_providers n 0
        = alistGetD p.liquidity_providers n 0 + (p.provide_liquidity a b n).2) ∧
    (Pool.provide_liquidity { reserve_a := 1000, reserve_b := 1000, liquidity_providers := [] }
      100 100 n).2 = 100 := by
  refine ⟨?_, ?_, ?_⟩
  · intro h
    unfold Pool.provide_liquidity
    rw [if_pos h]
  · intro ha hb
    have hg : ¬(a ≤ 0 ∨ b ≤ 0) := by
      push_neg
      exact ⟨ha, hb⟩
    refine ⟨?_, ?_, ?_, ?_, ?_⟩
    · intro h0
      simp only [Pool.provide_liquidity, if_neg hg, if_pos h0]
    · intro h0 _ _
      simp only [Pool.provide_liquidity, if_neg hg, if_neg h0]
    · simp only [Pool.provide_liquidity, if_neg hg]
    · simp only [Pool.provide_liquidity, if_neg hg]
    · simp only [Pool.provide_liquidity, if_neg hg]
      rw [alistGetD_set_self]
  · have hsq : Nat.sqrt 10000 = 100 := by
      have h : (10000 : ℕ) = 100 * 100 := by norm_num
      rw [h, Nat.sqrt_eq]
    have htn : Int.toNat 10000 = 10000 := rfl
    norm_num [Pool.provide_liquidity, Pool.total_liquidity, ratSqrt, hsq, htn]

theorem provide_liquidity_spec_witness :
    Pool.provide_liquidity { reserve_a := 1000, reserve_b := 1000, liquidity_providers := [] }
      (-5) 10 name_B
      = ({ reserve_a := 1000, reserve_b := 1000, liquidity_providers := [] }, 0) ∧
    (Pool.provide_liquidity
      { reserve_a := 1000, reserve_b := 1000, liquidity_providers := [(name_A, 100)] }
      200 100 name_B).2 = 200 ∧
    (Pool.provide_liquidity { reserve_a := 1000, reserve_b := 1000, liquidity_providers := [] }
      100 100 name_B).2 = 100 := by
  have h1 := provide_liquidity_spec
    { reserve_a := 1000, reserve_b := 1000, liquidity_providers := [] } (-5) 10 name_B
  have h2 := provide_liquidity_spec
    { reserve_a := 1000, reserve_b := 1000, liquidity_providers := [(name_A, 100)] }
    200 100 name_B
  refine ⟨h1.1 (Or.inl (by norm_num)), ?_, h1.2.2⟩
  have h3 := (h2.2.1 (by norm_num) (by norm_num)).2.1
    (by norm_num [Pool.total_liquidity]) (by norm_num) (by norm_num)
  rw [h3]
  norm_num

/-- C10: on a pool with positive total LP supply, withdrawing lp_tokens > 0
under an actor name absent from liquidity_providers raises KeyError — after
both reserves have already been decreased by the proportional amounts — rather
than performing a no-op or returning normally. -/
theorem withdraw_missing_provider_keyerror (p : Pool) (lp : ℚ) (n : String)
    (htot : 0 < p.total_liquidity) (hlp : 0 < lp)
    (hn : alistGet? p.liquidity_providers n = none) :
    p.withdraw_liquidity lp n = Except.error
      { reserve_a := p.reserve_a - p.reserve_a * (lp / p.total_liquidity),
        reserve_b := p.reserve_b - p.reserve_b * (lp / p.total_liquidity),
        liquidity_providers := p.liquidity_providers } := by
  unfold Pool.withdraw_liquidity
  rw [if_neg (by push_neg; exact ⟨ne_of_gt htot, hlp⟩)]
  dsimp only
  rw [hn]

theorem withdraw_missing_provider_keyerror_witness :
    Pool.withdraw_liquidity
      { reserve_a := 1000, reserve_b := 1000, liquidity_providers := [(name_A, 100)] }
      50 name_B
    = Except.error
      { reserve_a := 500, reserve_b := 500, liquidity_providers := [(name_A, 100)] } := by
  have h := withdraw_missing_provider_keyerror
    { reserve_a := 1000, reserve_b := 1000, liquidity_providers := [(name_A, 100)] }
    50 name_B (by norm_num [Pool.total_liquidity]) (by norm_num)
    (by simp [alistGet?, name_A, name_B])
  rw [h]
  norm_num [Pool.total_liquidity]
